import Mathlib

/-!
Verification of the FinWise backend's transaction-ledger core.

This file shallowly embeds the data model and operations of the FinWise
backend (controllers/transactionController.js, controllers/accountController.js,
models/Transaction.js, models/Budget.js) in Lean and proves the frozen claims
about them.

Modelling conventions:
* JavaScript strings are modelled as lists of UTF-16 code units (`JSString`);
  `toLowerCase`/`toUpperCase`/`trim` are modelled on the ASCII range, which is
  all the enum and category normalization in the source exercises.
* JavaScript numbers (amounts, balances, thresholds) are modelled as `ℚ`.
* MongoDB documents live in in-memory lists; `_id` lookup is `List.find?`
  and single-document update maps over the list at the matching id (Mongo
  ids are unique, so this coincides with updating the one matching document).
* Dates are calendar triples (year, month 1..12, day); the `Date` bounds the
  controllers build are resolved to these triples (JS `new Date(y, m, 0)` is
  the last day of month `m`).
* HTTP responses are modelled by their status code plus the post-state.
-/

namespace FinWise

/-- A JavaScript string as its list of UTF-16 code units. -/
abbrev JSString := List Nat

/-- Code units of a Lean string literal, for writing concrete JS strings. -/
def str (s : String) : JSString := s.data.map Char.toNat

/-- Whitespace code units removed by JS String.prototype.trim (ASCII range). -/
def isJsSpace (n : Nat) : Bool := n = 32 || n = 9 || n = 10 || n = 13 || n = 11 || n = 12

/-- JS String.prototype.trim. -/
def jsTrim (s : JSString) : JSString :=
  ((s.dropWhile isJsSpace).reverse.dropWhile isJsSpace).reverse

/-- Lower-casing of one code unit (JS toLowerCase, ASCII range). -/
def lowerUnit (n : Nat) : Nat := if 65 ≤ n ∧ n ≤ 90 then n + 32 else n

/-- Upper-casing of one code unit (JS toUpperCase, ASCII range). -/
def upperUnit (n : Nat) : Nat := if 97 ≤ n ∧ n ≤ 122 then n - 32 else n

/-- JS String.prototype.toLowerCase. -/
def jsToLower (s : JSString) : JSString := s.map lowerUnit

/-- JS String.prototype.toUpperCase. -/
def jsToUpper (s : JSString) : JSString := s.map upperUnit

/-- normalizeType from transactionController.js: trim then upper-case. -/
def normalizeType (s : JSString) : JSString := jsToUpper (jsTrim s)

/-- normalizeCategory from transactionController.js: trim then lower-case. -/
def normalizeCategory (s : JSString) : JSString := jsToLower (jsTrim s)

/-- The transaction type enum of models/Transaction.js. -/
inductive TxType where
  | INCOME
  | EXPENSE
  | INVESTMENT
  | TAX
deriving DecidableEq, Repr

/-- The validTypes list of transactionController.js. -/
def validTypes : List JSString :=
  [str ("INCOME"), str ("EXPENSE"), str ("INVESTMENT"), str ("TAX")]

/-- Decode a normalized type string (one of validTypes) into the enum. -/
def decodeType (s : JSString) : TxType :=
  if s = str ("INCOME") then .INCOME
  else if s = str ("EXPENSE") then .EXPENSE
  else if s = str ("INVESTMENT") then .INVESTMENT
  else .TAX

/-- The stored string form of a transaction type. -/
def encodeType : TxType → JSString
  | .INCOME => str ("INCOME")
  | .EXPENSE => str ("EXPENSE")
  | .INVESTMENT => str ("INVESTMENT")
  | .TAX => str ("TAX")

/-- Signed balance contribution of a transaction, from the post-save hook of
models/Transaction.js: INCOME adds the amount, EXPENSE/INVESTMENT/TAX
subtract it. -/
def txDelta (ty : TxType) (amount : ℚ) : ℚ :=
  match ty with
  | .INCOME => amount
  | .EXPENSE => -amount
  | .INVESTMENT => -amount
  | .TAX => -amount

/-- A calendar date (year, month 1..12, day 1..days-in-month), the resolution
at which the controllers' Date window bounds compare transaction dates. -/
structure JsDate where
  year : Nat
  month : Nat
  day : Nat
deriving DecidableEq, Repr

/-- Lexicographic order on dates, modelling JS Date comparison. -/
def dateLE (a b : JsDate) : Prop :=
  a.year < b.year ∨ (a.year = b.year ∧
    (a.month < b.month ∨ (a.month = b.month ∧ a.day ≤ b.day)))

instance (a b : JsDate) : Decidable (dateLE a b) := by
  unfold dateLE; infer_instance

/-- An account document (models/Account.js). -/
structure Account where
  id : Nat
  user : Nat
  balance : ℚ
  name : JSString
  type : JSString
  currency : JSString
  isDefault : Bool
  color : JSString
  description : JSString
deriving DecidableEq, Repr

/-- A transaction document (models/Transaction.js), restricted to the fields
the claims under verification mention. -/
structure Transaction where
  id : Nat
  user : Nat
  account : Nat
  type : TxType
  amount : ℚ
  description : JSString
  category : JSString
  date : JsDate
deriving DecidableEq, Repr

/-- The persistent store: account and transaction collections plus the next
fresh document id. -/
structure DB where
  accounts : List Account
  transactions : List Transaction
  nextId : Nat
deriving DecidableEq, Repr

/-- Account.findById. -/
def findAccountById (l : List Account) (i : Nat) : Option Account :=
  l.find? (fun a => decide (a.id = i))

/-- Update the single account document with the given id (Mongo ids are
unique, so mapping over the collection updates exactly that document). -/
def updateWhere (l : List Account) (i : Nat) (g : Account → Account) : List Account :=
  l.map (fun a => if a.id = i then g a else a)

/-- Balance of the account with the given id, if present. -/
def accountBalance (db : DB) (i : Nat) : Option ℚ :=
  (db.accounts.find? (fun a => decide (a.id = i))).map (fun a => a.balance)

/-- The post('save') hook of models/Transaction.js: look up the linked
account and, when it exists, apply the signed amount to its balance
(the lookup failing silently skips the adjustment). -/
def postSaveHook (db : DB) (tx : Transaction) : DB :=
  match findAccountById db.accounts tx.account with
  | none => db
  | some _ =>
    { db with accounts := (updateWhere db.accounts tx.account
        (fun a => { a with balance := a.balance + txDelta tx.type tx.amount })) }

/-- The post('findOneAndDelete') hook of models/Transaction.js: reverse the
creation adjustment on the linked account, when it exists. -/
def postDeleteHook (db : DB) (tx : Transaction) : DB :=
  match findAccountById db.accounts tx.account with
  | none => db
  | some _ =>
    { db with accounts := (updateWhere db.accounts tx.account
        (fun a => { a with balance := a.balance - txDelta tx.type tx.amount })) }

/-- Ownership predicate used by findOne({_id, user}) / findOneAndDelete. -/
def ownedBy (i u : Nat) (t : Transaction) : Bool := decide (t.id = i ∧ t.user = u)

/-- deleteTransaction from transactionController.js: find the caller-owned
transaction (404 when absent), delete it, and fire the balance-reversal
post hook on the deleted document. -/
def deleteTransaction (db : DB) (u i : Nat) : Nat × DB :=
  match db.transactions.find? (ownedBy i u) with
  | none => (404, db)
  | some t =>
    (200, postDeleteHook { db with transactions := db.transactions.eraseP (ownedBy i u) } t)

/-- getTransaction from transactionController.js (the stored document a
query by id returns to the owner). -/
def getTransaction (db : DB) (u i : Nat) : Option Transaction :=
  db.transactions.find? (ownedBy i u)

/-- The create-transaction request body; `none` models an absent/null/empty
field, and for amount the inner `none` models a value parseFloat rejects
(NaN). -/
structure CreateInput where
  type : Option JSString
  amount : Option (Option ℚ)
  description : Option JSString
  category : Option JSString
  account : Option Nat
  date : JsDate
deriving DecidableEq, Repr

/-- The missing-required-field test of createTransaction (undefined, null or
empty string). -/
def strMissing : Option JSString → Bool
  | none => true
  | some s => s.isEmpty

/-- The mongoose schema validators of models/Transaction.js that
Transaction.create runs on the fields this embedding carries: description
is required (a String validates required only when non-empty) with
maxlength 200 code units, amount has min 0.01 (written mkRat 1 100; the
lemma mkRat_hundredth below records that this is 1/100), and category is
required; the type and date fields are valid by construction here (the
controller has already normalized type into the enum and date is always a
date). -/
def transactionSchemaValid (t : Transaction) : Bool :=
  decide (t.description ≠ []) && decide (t.description.length ≤ 200) &&
    decide (mkRat 1 100 ≤ t.amount) && decide (t.category ≠ [])

/-- createTransaction from transactionController.js: required-field check,
type normalization and enum check, amount parse and positivity check,
owned-account lookup, then Transaction.create — which runs the mongoose
schema validators and, on failure, rejects: the controller's catch turns
the ValidationError into a 400 response with nothing inserted and no hook
fired. On success the document is inserted (the pre('save') hook
lower-cases the category and upper-cases the type once more) and the
post('save') balance hook fires. Returns status, post-state, and the new
document id. -/
def createTransaction (db : DB) (u : Nat) (inp : CreateInput) : Nat × DB × Option Nat :=
  if strMissing inp.type || inp.amount.isNone || strMissing inp.description ||
      strMissing inp.category || inp.account.isNone then
    (400, db, none)
  else
    match inp.type, inp.amount, inp.description, inp.category, inp.account with
    | some ty, some am, some ds, some cat, some accId =>
      let nty := normalizeType ty
      if nty ∈ validTypes then
        match am with
        | none => (400, db, none)
        | some q =>
          if q ≤ 0 then (400, db, none)
          else
            match db.accounts.find? (fun a => decide (a.id = accId ∧ a.user = u)) with
            | none => (404, db, none)
            | some _ =>
              let tx : Transaction :=
                { id := db.nextId
                  user := u
                  account := accId
                  type := decodeType (jsToUpper nty)
                  amount := q
                  description := jsTrim ds
                  category := jsToLower (normalizeCategory cat)
                  date := inp.date }
              if transactionSchemaValid tx then
                let db2 : DB :=
                  { db with transactions := tx :: db.transactions, nextId := db.nextId + 1 }
                (201, postSaveHook db2 tx, some db.nextId)
              else (400, db, none)
      else (400, db, none)
    | _, _, _, _, _ => (400, db, none)

/-- The update-transaction request body; outer `none` is an absent (or, for
the string fields, JS-falsy) field, and for amount the inner `none` is a
value parseFloat rejects. -/
structure TxPatch where
  type : Option JSString
  amount : Option (Option ℚ)
  category : Option JSString
  description : Option JSString
  account : Option Nat
  date : Option JsDate
deriving DecidableEq, Repr

/-- Field application of findByIdAndUpdate for a transaction patch whose
validations passed: present fields overwrite, absent fields are kept.
No save hook runs, so this touches only the transactions collection. -/
def applyTxPatch (t : Transaction) (tyChange : Option TxType) (amt : Option ℚ)
    (p : TxPatch) : Transaction :=
  { t with
    type := tyChange.getD t.type
    amount := amt.getD t.amount
    category := (p.category.map normalizeCategory).getD t.category
    description := p.description.getD t.description
    account := p.account.getD t.account
    date := p.date.getD t.date }

/-- updateTransaction from transactionController.js: find the caller-owned
transaction (404 when absent), validate a present type against the enum and
a present amount for positivity (400 on failure), then findByIdAndUpdate,
which fires no balance hook. -/
def updateTransaction (db : DB) (u i : Nat) (p : TxPatch) : Nat × DB :=
  match db.transactions.find? (ownedBy i u) with
  | none => (404, db)
  | some _ =>
    let tyStep : Option (Option TxType) :=
      match p.type with
      | none => some none
      | some s =>
        let n := normalizeType s
        if n ∈ validTypes then some (some (decodeType n)) else none
    match tyStep with
    | none => (400, db)
    | some tyChange =>
      match p.amount with
      | some none => (400, db)
      | some (some q) =>
        if q ≤ 0 then (400, db)
        else
          (200, { db with transactions := (db.transactions.map
              (fun t => if t.id = i then applyTxPatch t tyChange (some q) p else t)) })
      | none =>
        (200, { db with transactions := (db.transactions.map
            (fun t => if t.id = i then applyTxPatch t tyChange none p else t)) })

/-- bulkDeleteTransactions from transactionController.js: reject an empty id
list (400), fetch the caller's transactions among the ids and fail the whole
batch with 403 unless the count matches the id-list length, then delete the
ids one at a time, each delete firing its own balance-reversal hook. -/
def bulkDeleteTransactions (db : DB) (u : Nat) (ids : List Nat) : Nat × DB :=
  if ids.isEmpty then (400, db)
  else
    let userTransactions :=
      db.transactions.filter (fun t => decide (t.id ∈ ids) && decide (t.user = u))
    if userTransactions.length ≠ ids.length then (403, db)
    else (200, ids.foldl (fun d i => (deleteTransaction d u i).2) db)

/-- One row of the $group-by-type stage of getTransactionStats: type, total
amount, document count. Folding a transaction either bumps its type's row or
appends a fresh row. -/
def addToGroups : List (TxType × ℚ × Nat) → Transaction → List (TxType × ℚ × Nat)
  | [], t => [(t.type, t.amount, 1)]
  | (ty, s, c) :: rest, t =>
    if ty = t.type then (ty, s + t.amount, c + 1) :: rest
    else (ty, s, c) :: addToGroups rest t

/-- The aggregate([{$match}, {$group: {_id: type}}]) pipeline of
getTransactionStats, applied to the matched transactions. -/
def aggregateByType (txs : List Transaction) : List (TxType × ℚ × Nat) :=
  txs.foldl addToGroups []

/-- byType from getTransactionStats: find the group for a type, defaulting
an absent group to total 0 and count 0. -/
def byType (gs : List (TxType × ℚ × Nat)) (ty : TxType) : ℚ × Nat :=
  match gs.find? (fun g => decide (g.1 = ty)) with
  | some g => g.2
  | none => (0, 0)

/-- The response record of getTransactionStats. -/
structure TxStats where
  income : ℚ
  expense : ℚ
  investment : ℚ
  tax : ℚ
  net : ℚ
  transactionCount : Nat
  incomeCount : Nat
  expenseCount : Nat
  investmentCount : Nat
  taxCount : Nat
deriving DecidableEq, Repr

/-- getTransactionStats from transactionController.js over the matched
transactions: group by type, read the four enumerated types back with zero
defaults, and roll up net = income − expense − investment − tax. -/
def getTransactionStats (txs : List Transaction) : TxStats :=
  let stats := aggregateByType txs
  let income := byType stats .INCOME
  let expense := byType stats .EXPENSE
  let investment := byType stats .INVESTMENT
  let tax := byType stats .TAX
  { income := income.1
    expense := expense.1
    investment := investment.1
    tax := tax.1
    net := income.1 - expense.1 - investment.1 - tax.1
    transactionCount := income.2 + expense.2 + investment.2 + tax.2
    incomeCount := income.2
    expenseCount := expense.2
    investmentCount := investment.2
    taxCount := tax.2 }

/-- Total amount of the matched transactions of one type (the quantity the
grouped aggregation is specified to produce). -/
def typeSum (txs : List Transaction) (ty : TxType) : ℚ :=
  ((txs.filter (fun t => decide (t.type = ty))).map (fun t => t.amount)).sum

/-- Number of matched transactions of one type. -/
def typeCount (txs : List Transaction) (ty : TxType) : Nat :=
  (txs.filter (fun t => decide (t.type = ty))).length

/-- The budget period enum of models/Budget.js. -/
inductive BudgetPeriod where
  | MONTHLY
  | YEARLY
deriving DecidableEq, Repr

/-- The status labels getBudgetStats computes. -/
inductive BudgetStatus where
  | EXCEEDED
  | WARNING
  | HEALTHY
deriving DecidableEq, Repr

/-- A budget document (models/Budget.js); month is present iff the budget
is MONTHLY (required conditionally by the schema). -/
structure Budget where
  id : Nat
  user : Nat
  amount : ℚ
  period : BudgetPeriod
  category : JSString
  year : Nat
  month : Option Nat
  alertsEnabled : Bool
  alertThreshold : ℚ
deriving DecidableEq, Repr

/-- percentageUsed as the budget controllers compute it: spending over
amount times 100, and 0 when amount is not positive. -/
def percentageUsed (amount spending : ℚ) : ℚ :=
  if 0 < amount then spending / amount * 100 else 0

/-- The status ternary of getBudgetStats: EXCEEDED at 100, WARNING at the
literal 80, HEALTHY below. -/
def statsStatus (pct : ℚ) : BudgetStatus :=
  if 100 ≤ pct then .EXCEEDED else if 80 ≤ pct then .WARNING else .HEALTHY

/-- Status getBudgetStats reports for a budget at a given spending. -/
def budgetStatsStatus (b : Budget) (spending : ℚ) : BudgetStatus :=
  statsStatus (percentageUsed b.amount spending)

/-- The alert getBudgetAlerts emits for one budget: only alerts-enabled
budgets are queried, an entry is produced when percentageUsed reaches the
budget's alertThreshold, and its alertType is EXCEEDED at 100 and WARNING
below. -/
def budgetAlert (b : Budget) (spending : ℚ) : Option BudgetStatus :=
  if b.alertsEnabled then
    if b.alertThreshold ≤ percentageUsed b.amount spending then
      some (if 100 ≤ percentageUsed b.amount spending then .EXCEEDED else .WARNING)
    else none
  else none

/-- Days in a calendar month, as JS Date resolves new Date(y, m, 0). -/
def daysInMonth (y m : Nat) : Nat :=
  if m = 2 then (if (y % 4 = 0 ∧ y % 100 ≠ 0) ∨ y % 400 = 0 then 29 else 28)
  else if m = 4 ∨ m = 6 ∨ m = 9 ∨ m = 11 then 30 else 31

/-- A well-formed calendar date. -/
def validDate (d : JsDate) : Prop :=
  1 ≤ d.month ∧ d.month ≤ 12 ∧ 1 ≤ d.day ∧ d.day ≤ daysInMonth d.year d.month

instance (d : JsDate) : Decidable (validDate d) := by
  unfold validDate
  infer_instance

/-- The Date window getBudgets builds from the budget fields: with month
present, new Date(year, month−1, 1) and new Date(year, month, 0) resolve to
the first and last day of that month; with month absent (YEARLY budgets)
the month arithmetic goes through NaN, producing Invalid Date bounds whose
comparisons match no stored transaction date. -/
def budgetWindow (year : Nat) : Option Nat → Option (JsDate × JsDate)
  | some m => some (⟨year, m, 1⟩, ⟨year, m, daysInMonth year m⟩)
  | none => none

/-- Date-range test of the aggregation $match: $gte/$lte against the window
bounds; Invalid Date bounds (no window) match nothing. -/
def inWindow (d : JsDate) : Option (JsDate × JsDate) → Bool
  | some w => decide (dateLE w.1 d) && decide (dateLE d w.2)
  | none => false

/-- The per-budget spending aggregation of getBudgets: sum the amounts of
the caller's EXPENSE transactions whose category equals the budget's
category exactly and whose date lies in the budget's window. -/
def budgetSpending (txs : List Transaction) (u : Nat) (b : Budget) : ℚ :=
  ((txs.filter (fun t => decide (t.user = u) && decide (t.type = TxType.EXPENSE) &&
      decide (t.category = b.category) &&
      inWindow t.date (budgetWindow b.year b.month))).map (fun t => t.amount)).sum

/-- The update-account request body (accountController.js). -/
structure AccountPatch where
  name : Option JSString
  type : Option JSString
  balance : Option ℚ
  currency : Option JSString
  isDefault : Option Bool
  color : Option JSString
  description : Option JSString
deriving DecidableEq, Repr

/-- Field application of findByIdAndUpdate for an account patch. The
controller destructures `balance` out of the body before updating, so the
balance field is never part of the update document. -/
def applyAccountPatch (a : Account) (p : AccountPatch) : Account :=
  { a with
    name := p.name.getD a.name
    type := p.type.getD a.type
    currency := p.currency.getD a.currency
    isDefault := p.isDefault.getD a.isDefault
    color := p.color.getD a.color
    description := p.description.getD a.description }

/-- updateAccount from accountController.js: find the caller-owned account
(404 when absent), strip `balance` from the body, and apply the rest via
findByIdAndUpdate. -/
def updateAccount (db : DB) (u i : Nat) (p : AccountPatch) : Nat × DB :=
  match db.accounts.find? (fun a => decide (a.id = i ∧ a.user = u)) with
  | none => (404, db)
  | some _ =>
    (200, { db with accounts := updateWhere db.accounts i (fun a => applyAccountPatch a p) })

/-- A create or delete request hitting the transaction ledger: create inserts
the document and fires the post-save hook; delete is deleteTransaction. -/
inductive LedgerEvent where
  | create (tx : Transaction)
  | delete (u i : Nat)
deriving DecidableEq, Repr

/-- One ledger request against the store. -/
def applyEvent (db : DB) : LedgerEvent → DB
  | .create tx => postSaveHook { db with transactions := tx :: db.transactions } tx
  | .delete u i => (deleteTransaction db u i).2

/-- A sequence of ledger requests, applied in order. -/
def runEvents (db : DB) (es : List LedgerEvent) : DB := es.foldl applyEvent db

/-- Sum of the signed contributions of the stored transactions linked to the
given account (the quantity the spec calls the derived balance invariant). -/
def txSum (txs : List Transaction) (a : Nat) : ℚ :=
  ((txs.filter (fun t => decide (t.account = a))).map (fun t => txDelta t.type t.amount)).sum

/-- Concrete account for the invariant run: starts at balance 0. -/
def c1acc : Account :=
  { id := 1, user := 1, balance := 0, name := str ("Main"),
    type := str ("CURRENT"), currency := str ("RUPEES"), isDefault := true,
    color := str ("#3B82F6"), description := str ("") }

/-- The store of the concrete invariant run: one account, no transactions. -/
def c1db : DB :=
  { accounts := [c1acc], transactions := [], nextId := 10 }

/-- The income transaction of the concrete invariant run. -/
def c1tx1 : Transaction :=
  { id := 10, user := 1, account := 1, type := .INCOME, amount := 500,
    description := str ("salary"), category := str ("income"), date := ⟨2025, 1, 15⟩ }

/-- The expense transaction of the concrete invariant run. -/
def c1tx2 : Transaction :=
  { id := 11, user := 1, account := 1, type := .EXPENSE, amount := 200,
    description := str ("groceries"), category := str ("food"), date := ⟨2025, 1, 20⟩ }

/-- The event sequence of the concrete invariant run. -/
def c1events : List LedgerEvent :=
  [.create c1tx1, .create c1tx2, .delete 1 11, .delete 1 10]

/-- First caller-owned transaction of the bulk-delete witness store. -/
def c2tx1 : Transaction :=
  { id := 1, user := 1, account := 1, type := .EXPENSE, amount := 10,
    description := str ("a"), category := str ("misc"), date := ⟨2025, 2, 1⟩ }

/-- Second caller-owned transaction of the bulk-delete witness store. -/
def c2tx2 : Transaction :=
  { id := 2, user := 1, account := 1, type := .EXPENSE, amount := 20,
    description := str ("b"), category := str ("misc"), date := ⟨2025, 2, 2⟩ }

/-- A transaction of another user in the bulk-delete witness store. -/
def c2tx3 : Transaction :=
  { id := 3, user := 2, account := 1, type := .EXPENSE, amount := 30,
    description := str ("c"), category := str ("misc"), date := ⟨2025, 2, 3⟩ }

/-- Store for the bulk-delete witness: ids 1 and 2 belong to user 1, id 3
belongs to user 2. -/
def c2db : DB :=
  { accounts := [c1acc], transactions := [c2tx1, c2tx2, c2tx3], nextId := 4 }

/-- Store for the double-delete witness: one account, one transaction. -/
def c3db : DB :=
  { accounts := [c1acc], transactions := [c1tx1], nextId := 11 }

/-- Input for the amount-boundary witness: a well-formed create request
whose amount parses to 0. -/
def c9inp : CreateInput :=
  { type := some (str ("income")), amount := some (some 0),
    description := some (str ("test")), category := some (str ("Misc")),
    account := some 1, date := ⟨2025, 3, 1⟩ }

/-- Input for the round-trip witness: mixed-casing type and category with
surrounding whitespace. -/
def c5inp : CreateInput :=
  { type := some (str (" InCoMe ")), amount := some (some 25),
    description := some (str (" lunch ")), category := some (str (" FoOd ")),
    account := some 1, date := ⟨2025, 4, 2⟩ }

/-- Monthly budget for the window witness. -/
def c7budgetM : Budget :=
  { id := 1, user := 1, amount := 1000, period := .MONTHLY, category := str ("food"),
    year := 2025, month := some 4, alertsEnabled := true, alertThreshold := 80 }

/-- In-window expense transaction for the window witness. -/
def c7tx : Transaction :=
  { id := 30, user := 1, account := 1, type := .EXPENSE, amount := 850,
    description := str ("x"), category := str ("food"), date := ⟨2025, 4, 10⟩ }

/-- Yearly budget (month absent) for the C7 counterexample. -/
def c7budgetY : Budget :=
  { id := 2, user := 1, amount := 1000, period := .YEARLY, category := str ("rent"),
    year := 2025, month := none, alertsEnabled := true, alertThreshold := 80 }

/-- An expense of the budget's category and year for the C7 counterexample. -/
def c7txY : Transaction :=
  { id := 31, user := 1, account := 1, type := .EXPENSE, amount := 50,
    description := str ("r"), category := str ("rent"), date := ⟨2025, 3, 15⟩ }

/-- The status classification as the specification words it, with the
budget's own alertThreshold as the WARNING bound — written from the spec
only to compare against the code's statsStatus. -/
def specStatus (thr pct : ℚ) : BudgetStatus :=
  if 100 ≤ pct then .EXCEEDED else if thr ≤ pct then .WARNING else .HEALTHY

/-- Budget with a non-default alert threshold for the C6 counterexample. -/
def c6budget50 : Budget :=
  { id := 3, user := 1, amount := 1000, period := .MONTHLY, category := str ("food"),
    year := 2025, month := some 4, alertsEnabled := true, alertThreshold := 50 }

/-- Budget with the default threshold 80 for the C6 example conjuncts. -/
def c6budget80 : Budget :=
  { id := 4, user := 1, amount := 1000, period := .MONTHLY, category := str ("food"),
    year := 2025, month := some 4, alertsEnabled := true, alertThreshold := 80 }

section Lemmas

/-- Balance projection of an id lookup is unchanged by a per-document map
that preserves both id and balance. -/
theorem find_map_balance (l : List Account) (f : Account → Account) (k : Nat)
    (hid : ∀ a, (f a).id = a.id) (hbal : ∀ a, (f a).balance = a.balance) :
    ((l.map f).find? (fun a => decide (a.id = k))).map (fun a => a.balance) =
      (l.find? (fun a => decide (a.id = k))).map (fun a => a.balance) := by
  rw [List.find?_map]
  have hp : ((fun a => decide (a.id = k)) ∘ f) = (fun a => decide (a.id = k)) := by
    funext a; simp [hid a]
  rw [hp, Option.map_map]
  cases h : l.find? (fun a => decide (a.id = k)) with
  | none => rfl
  | some a => simp [hbal a]

/-- The single-document updater preserves id-lookup keys when the update
function preserves ids. -/
theorem updateWhere_pred (i k : Nat) (g : Account → Account)
    (hid : ∀ a, (g a).id = a.id) :
    ((fun a => decide (a.id = k)) ∘ fun a => if a.id = i then g a else a) =
      (fun a => decide (a.id = k)) := by
  funext a
  by_cases hai : a.id = i <;> simp [hai, hid a]

/-- Balance read at the updated id after updateWhere: the stored document is
the one the update function produced. -/
theorem find_updateWhere_eq (l : List Account) (i : Nat) (g : Account → Account)
    (hid : ∀ a, (g a).id = a.id) :
    ((updateWhere l i g).find? (fun a => decide (a.id = i))).map (fun a => a.balance) =
      (l.find? (fun a => decide (a.id = i))).map (fun a => (g a).balance) := by
  unfold updateWhere
  rw [List.find?_map, updateWhere_pred i i g hid, Option.map_map]
  cases hf : l.find? (fun a => decide (a.id = i)) with
  | none => rfl
  | some x =>
    have hx : x.id = i := by have := List.find?_some hf; simpa using this
    simp [Function.comp, hx]

/-- Balance read at any other id is untouched by updateWhere. -/
theorem find_updateWhere_ne (l : List Account) (i k : Nat) (g : Account → Account)
    (hid : ∀ a, (g a).id = a.id) (hk : k ≠ i) :
    ((updateWhere l i g).find? (fun a => decide (a.id = k))).map (fun a => a.balance) =
      (l.find? (fun a => decide (a.id = k))).map (fun a => a.balance) := by
  unfold updateWhere
  rw [List.find?_map, updateWhere_pred i k g hid, Option.map_map]
  cases hf : l.find? (fun a => decide (a.id = k)) with
  | none => rfl
  | some x =>
    have hx : x.id = k := by have := List.find?_some hf; simpa using this
    have hxi : ¬x.id = i := by rw [hx]; exact hk
    simp [Function.comp, hxi]

/-- Neither branch of the post-save hook touches the transactions
collection. -/
theorem postSaveHook_transactions (db : DB) (tx : Transaction) :
    (postSaveHook db tx).transactions = db.transactions := by
  unfold postSaveHook
  cases findAccountById db.accounts tx.account <;> rfl

/-- Neither branch of the post-delete hook touches the transactions
collection. -/
theorem postDeleteHook_transactions (db : DB) (tx : Transaction) :
    (postDeleteHook db tx).transactions = db.transactions := by
  unfold postDeleteHook
  cases findAccountById db.accounts tx.account <;> rfl

/-- Effect of the post-save hook on a stored balance: the linked account
gains the signed amount, every other account is untouched. -/
theorem postSaveHook_balance (db : DB) (tx : Transaction) (a : Nat) (b : ℚ)
    (h : accountBalance db a = some b) :
    accountBalance (postSaveHook db tx) a =
      some (b + (if tx.account = a then txDelta tx.type tx.amount else 0)) := by
  unfold postSaveHook findAccountById
  cases hfind : db.accounts.find? (fun x => decide (x.id = tx.account)) with
  | none =>
    have hne : ¬tx.account = a := by
      intro he
      rw [he] at hfind
      unfold accountBalance at h
      rw [hfind] at h
      simp at h
    simp [hne, h]
  | some acc =>
    dsimp only
    by_cases he : tx.account = a
    · subst he
      unfold accountBalance
      dsimp only
      rw [find_updateWhere_eq db.accounts tx.account
        (fun x => { x with balance := x.balance + txDelta tx.type tx.amount }) (fun x => rfl)]
      unfold accountBalance at h
      rw [hfind] at h ⊢
      simp at h
      simp [h]
    · unfold accountBalance
      dsimp only
      rw [find_updateWhere_ne db.accounts tx.account a
        (fun x => { x with balance := x.balance + txDelta tx.type tx.amount }) (fun x => rfl)
        (fun hc => he hc.symm)]
      unfold accountBalance at h
      rw [h]
      simp [he]

/-- Effect of the post-delete hook on a stored balance: the linked account
loses the signed amount, every other account is untouched. -/
theorem postDeleteHook_balance (db : DB) (tx : Transaction) (a : Nat) (b : ℚ)
    (h : accountBalance db a = some b) :
    accountBalance (postDeleteHook db tx) a =
      some (b - (if tx.account = a then txDelta tx.type tx.amount else 0)) := by
  unfold postDeleteHook findAccountById
  cases hfind : db.accounts.find? (fun x => decide (x.id = tx.account)) with
  | none =>
    have hne : ¬tx.account = a := by
      intro he
      rw [he] at hfind
      unfold accountBalance at h
      rw [hfind] at h
      simp at h
    simp [hne, h]
  | some acc =>
    dsimp only
    by_cases he : tx.account = a
    · subst he
      unfold accountBalance
      dsimp only
      rw [find_updateWhere_eq db.accounts tx.account
        (fun x => { x with balance := x.balance - txDelta tx.type tx.amount }) (fun x => rfl)]
      unfold accountBalance at h
      rw [hfind] at h ⊢
      simp at h
      simp [h]
    · unfold accountBalance
      dsimp only
      rw [find_updateWhere_ne db.accounts tx.account a
        (fun x => { x with balance := x.balance - txDelta tx.type tx.amount }) (fun x => rfl)
        (fun hc => he hc.symm)]
      unfold accountBalance at h
      rw [h]
      simp [he]

/-- Unfolding txSum over a cons cell. -/
theorem txSum_cons (t : Transaction) (l : List Transaction) (a : Nat) :
    txSum (t :: l) a =
      (if t.account = a then txDelta t.type t.amount else 0) + txSum l a := by
  by_cases h : t.account = a <;> simp [txSum, List.filter_cons, h]

/-- Removing the document found by findOneAndDelete subtracts exactly its
signed contribution from the per-account transaction sum. -/
theorem txSum_eraseP (u i : Nat) (l : List Transaction) (t : Transaction)
    (h : l.find? (ownedBy i u) = some t) (a : Nat) :
    txSum (l.eraseP (ownedBy i u)) a =
      txSum l a - (if t.account = a then txDelta t.type t.amount else 0) := by
  induction l with
  | nil => simp at h
  | cons x xs ih =>
    cases hp : ownedBy i u x with
    | true =>
      rw [List.find?_cons_of_pos _ hp] at h
      injection h with h
      subst h
      rw [List.eraseP_cons_of_pos hp, txSum_cons]
      ring
    | false =>
      rw [List.find?_cons_of_neg _ (by simp [hp])] at h
      rw [List.eraseP_cons_of_neg (by simp [hp]), txSum_cons, txSum_cons, ih h]
      ring

/-- One ledger event moves the stored balance of an existing account by
exactly the change in that account's signed transaction sum. -/
theorem applyEvent_balance (db : DB) (e : LedgerEvent) (a : Nat) (b : ℚ)
    (h : accountBalance db a = some b) :
    accountBalance (applyEvent db e) a =
      some (b + txSum (applyEvent db e).transactions a - txSum db.transactions a) := by
  cases e with
  | create tx =>
    dsimp only [applyEvent]
    have h1 : accountBalance { db with transactions := tx :: db.transactions } a = some b := h
    rw [postSaveHook_balance _ tx a b h1, postSaveHook_transactions]
    dsimp only
    rw [txSum_cons]
    congr 1
    ring
  | delete u i =>
    dsimp only [applyEvent]
    unfold deleteTransaction
    cases hf : db.transactions.find? (ownedBy i u) with
    | none =>
      dsimp only
      rw [h]
      congr 1
      ring
    | some t =>
      dsimp only
      have h1 : accountBalance
          { db with transactions := db.transactions.eraseP (ownedBy i u) } a = some b := h
      rw [postDeleteHook_balance _ t a b h1, postDeleteHook_transactions]
      dsimp only
      rw [txSum_eraseP u i db.transactions t hf]
      congr 1
      ring

/-- With pairwise-distinct transaction ids, once findOneAndDelete has
removed the matching document no further stored document matches the same
id-plus-owner filter. -/
theorem find?_eraseP_ownedBy (u i : Nat) (l : List Transaction) (t : Transaction)
    (hnd : (l.map (fun t => t.id)).Nodup)
    (h : l.find? (ownedBy i u) = some t) :
    (l.eraseP (ownedBy i u)).find? (ownedBy i u) = none := by
  induction l with
  | nil => simp at h
  | cons x xs ih =>
    simp only [List.map_cons, List.nodup_cons] at hnd
    obtain ⟨hx, hxs⟩ := hnd
    cases hp : ownedBy i u x with
    | true =>
      rw [List.eraseP_cons_of_pos hp]
      apply List.find?_eq_none.mpr
      intro y hy hpy
      have hyi : y.id = i ∧ y.user = u := by simpa [ownedBy] using hpy
      have hxi : x.id = i ∧ x.user = u := by simpa [ownedBy] using hp
      apply hx
      rw [hxi.1, ← hyi.1]
      exact List.mem_map_of_mem _ hy
    | false =>
      rw [List.find?_cons_of_neg _ (by simp [hp])] at h
      rw [List.eraseP_cons_of_neg (by simp [hp]),
        List.find?_cons_of_neg _ (by simp [hp])]
      exact ih hxs h

/-- A caller-owned id missing from the store forces the bulk-delete
ownership filter to return strictly fewer documents than there are ids. -/
theorem ownedFilter_length_lt (db : DB) (u : Nat) (ids : List Nat) (i0 : Nat)
    (hnd : (db.transactions.map (fun t => t.id)).Nodup)
    (hmem : i0 ∈ ids)
    (hnone : ∀ t ∈ db.transactions, ¬(t.id = i0 ∧ t.user = u)) :
    (db.transactions.filter (fun t => decide (t.id ∈ ids) && decide (t.user = u))).length
      < ids.length := by
  set owned := db.transactions.filter (fun t => decide (t.id ∈ ids) && decide (t.user = u))
    with howned
  have hsub : (owned.map (fun t => t.id)).Sublist (db.transactions.map (fun t => t.id)) :=
    (List.filter_sublist _).map _
  have hndo : (owned.map (fun t => t.id)).Nodup := hnd.sublist hsub
  have hin : ∀ x ∈ owned.map (fun t => t.id), x ∈ ids.filter (fun x => decide (x ≠ i0)) := by
    intro x hxm
    obtain ⟨t, ht, rfl⟩ := List.mem_map.mp hxm
    rw [howned, List.mem_filter] at ht
    obtain ⟨htl, htp⟩ := ht
    simp only [Bool.and_eq_true, decide_eq_true_eq] at htp
    rw [List.mem_filter]
    refine ⟨htp.1, ?_⟩
    simp only [decide_eq_true_eq]
    intro he
    exact hnone t htl ⟨he, htp.2⟩
  have h1 : owned.length = (owned.map (fun t => t.id)).length := (List.length_map _ _).symm
  have h2 : (owned.map (fun t => t.id)).length = (owned.map (fun t => t.id)).toFinset.card :=
    (List.toFinset_card_of_nodup hndo).symm
  have h3 : (owned.map (fun t => t.id)).toFinset ⊆
      (ids.filter (fun x => decide (x ≠ i0))).toFinset := by
    intro x hxm
    rw [List.mem_toFinset] at hxm ⊢
    exact hin x hxm
  have h4 : (ids.filter (fun x => decide (x ≠ i0))).toFinset.card ≤
      (ids.filter (fun x => decide (x ≠ i0))).length := List.toFinset_card_le _
  have h5 : (ids.filter (fun x => decide (x ≠ i0))).length < ids.length := by
    apply List.length_filter_lt_length_iff_exists.mpr
    exact ⟨i0, hmem, by simp⟩
  calc owned.length = (owned.map (fun t => t.id)).toFinset.card := by rw [h1, ← h2]
    _ ≤ (ids.filter (fun x => decide (x ≠ i0))).toFinset.card := Finset.card_le_card h3
    _ ≤ (ids.filter (fun x => decide (x ≠ i0))).length := h4
    _ < ids.length := h5

/-- The schema's minimum amount mkRat 1 100 is the rational 0.01. -/
theorem mkRat_hundredth : (mkRat 1 100 : ℚ) = 1 / 100 := by
  norm_num [mkRat]

/-- Lower-casing a code unit is idempotent. -/
theorem lowerUnit_idem (n : Nat) : lowerUnit (lowerUnit n) = lowerUnit n := by
  unfold lowerUnit
  by_cases h : 65 ≤ n ∧ n ≤ 90
  · rw [if_pos h, if_neg (by omega)]
  · rw [if_neg h, if_neg h]

/-- JS toLowerCase is idempotent, so the pre-save hook's second lower-casing
of the already-normalized category is the identity. -/
theorem jsToLower_idem (s : JSString) : jsToLower (jsToLower s) = jsToLower s := by
  unfold jsToLower
  rw [List.map_map]
  exact List.map_congr_left (fun c _ => lowerUnit_idem c)

/-- The four valid type strings are fixed by toUpperCase and round-trip
through decode/encode. -/
theorem validTypes_fixed (s : JSString) (hs : s ∈ validTypes) :
    jsToUpper s = s ∧ encodeType (decodeType s) = s := by
  simp only [validTypes, List.mem_cons, List.not_mem_nil, or_false] at hs
  rcases hs with rfl | rfl | rfl | rfl <;> exact ⟨by decide, by decide⟩

/-- Unfolding typeSum over a cons cell. -/
theorem typeSum_cons (t : Transaction) (l : List Transaction) (ty : TxType) :
    typeSum (t :: l) ty = (if t.type = ty then t.amount else 0) + typeSum l ty := by
  by_cases h : t.type = ty <;> simp [typeSum, List.filter_cons, h]

/-- Unfolding typeCount over a cons cell. -/
theorem typeCount_cons (t : Transaction) (l : List Transaction) (ty : TxType) :
    typeCount (t :: l) ty = (if t.type = ty then 1 else 0) + typeCount l ty := by
  by_cases h : t.type = ty <;> simp [typeCount, List.filter_cons, h, Nat.add_comm]

/-- Folding one transaction into the group rows bumps exactly its type's
row (or creates it) and leaves every other type's lookup unchanged. -/
theorem byType_addToGroups (gs : List (TxType × ℚ × Nat)) (t : Transaction) (ty : TxType) :
    byType (addToGroups gs t) ty =
      if t.type = ty then ((byType gs ty).1 + t.amount, (byType gs ty).2 + 1)
      else byType gs ty := by
  induction gs with
  | nil =>
    by_cases h : t.type = ty
    · simp [addToGroups, byType, h]
    · simp [addToGroups, byType, h, fun hc : ty = t.type => h hc.symm]
  | cons g rest ih =>
    obtain ⟨gy, s, c⟩ := g
    by_cases hg : gy = t.type
    · subst hg
      by_cases h : t.type = ty
      · subst h
        simp [addToGroups, byType, List.find?_cons]
      · simp [addToGroups, byType, List.find?_cons, h]
    · by_cases h : gy = ty
      · subst h
        have hne : t.type ≠ gy := fun hc => hg hc.symm
        simp [addToGroups, byType, hg, hne, List.find?_cons]
      · simp only [addToGroups, if_neg hg]
        have hlhs : byType ((gy, s, c) :: addToGroups rest t) ty =
            byType (addToGroups rest t) ty := by
          simp [byType, List.find?_cons, h]
        have hrhs : byType ((gy, s, c) :: rest) ty = byType rest ty := by
          simp [byType, List.find?_cons, h]
        rw [hlhs, hrhs, ih]

/-- The grouped lookup over a fold equals the starting lookup plus the
filtered sum and count of the folded transactions. -/
theorem byType_aggregate (txs : List Transaction) (gs : List (TxType × ℚ × Nat)) (ty : TxType) :
    byType (txs.foldl addToGroups gs) ty =
      ((byType gs ty).1 + typeSum txs ty, (byType gs ty).2 + typeCount txs ty) := by
  induction txs generalizing gs with
  | nil => simp [typeSum, typeCount]
  | cons t ts ih =>
    rw [List.foldl_cons, ih, byType_addToGroups, typeSum_cons, typeCount_cons]
    by_cases h : t.type = ty
    · simp only [if_pos h]
      simp only [Prod.mk.injEq]
      constructor
      · ring
      · omega
    · simp only [if_neg h]
      simp

/-- Every transaction has one of the four enumerated types, so the four
per-type counts partition the matched collection. -/
theorem typeCount_partition (txs : List Transaction) :
    typeCount txs .INCOME + typeCount txs .EXPENSE + typeCount txs .INVESTMENT +
      typeCount txs .TAX = txs.length := by
  induction txs with
  | nil => rfl
  | cons t ts ih =>
    rw [typeCount_cons, typeCount_cons, typeCount_cons, typeCount_cons, List.length_cons]
    cases h : t.type <;> simp [h] <;> omega

/-- For a valid date and a real month, lying between the first and the last
day of the month is the same as having that year and month. -/
theorem inWindow_monthly (d : JsDate) (y m : Nat) (hd : validDate d) :
    inWindow d (budgetWindow y (some m)) =
      (decide (d.year = y) && decide (d.month = m)) := by
  obtain ⟨ha, hb, hc, hdd⟩ := hd
  show (decide (dateLE ⟨y, m, 1⟩ d) && decide (dateLE d ⟨y, m, daysInMonth y m⟩)) = _
  rw [← Bool.decide_and, ← Bool.decide_and]
  apply decide_eq_decide.mpr
  constructor
  · intro hw
    obtain ⟨hw1, hw2⟩ := hw
    unfold dateLE at hw1 hw2
    dsimp only at hw1 hw2
    omega
  · rintro ⟨hy, hmm⟩
    rw [hy, hmm] at hdd
    unfold dateLE
    dsimp only
    omega

end Lemmas

/-- C1: for every account present in the store and every sequence of
transaction creates and deletes, the final balance equals the initial
balance plus the net signed contribution of the applied operations: each
applied create adds +amount for INCOME and −amount for
EXPENSE/INVESTMENT/TAX, and each applied delete reverses exactly the
deleted transaction's creation adjustment, in order. The net contribution
is the change in the account's signed transaction sum. -/
theorem ledger_balance_invariant (es : List LedgerEvent) (db : DB) (a : Nat) (b : ℚ)
    (h : accountBalance db a = some b) :
    accountBalance (runEvents db es) a =
      some (b + txSum (runEvents db es).transactions a - txSum db.transactions a) := by
  induction es generalizing db b with
  | nil =>
    rw [runEvents, List.foldl_nil, h]
    congr 1
    ring
  | cons e es ih =>
    have h1 := applyEvent_balance db e a b h
    have h2 := ih (applyEvent db e) _ h1
    rw [runEvents, List.foldl_cons]
    rw [runEvents] at h2
    rw [h2]
    congr 1
    ring

/-- Witness for C1: the invariant theorem applied to the concrete run. -/
theorem ledger_balance_invariant_witness :
    accountBalance c1db 1 = some 0 ∧
    accountBalance (runEvents c1db c1events) 1 =
      some (0 + txSum (runEvents c1db c1events).transactions 1 - txSum c1db.transactions 1) :=
  ⟨rfl, ledger_balance_invariant c1events c1db 1 0 rfl⟩

/-- C2: bulk delete with a non-empty id list is all-or-nothing on
authorization: if some id in the list has no transaction owned by the
caller, the request returns 403 with the store unchanged (so nothing is
deleted and no balance moves), and the per-id deletion loop (each delete
firing its own reversal hook) runs only when every id in the list is owned
by the caller. -/
theorem bulkDelete_authorization (db : DB) (u : Nat) (ids : List Nat)
    (hne : ids ≠ [])
    (hnd : (db.transactions.map (fun t => t.id)).Nodup) :
    ((∃ i ∈ ids, ∀ t ∈ db.transactions, ¬(t.id = i ∧ t.user = u)) →
        bulkDeleteTransactions db u ids = (403, db)) ∧
    ((bulkDeleteTransactions db u ids).1 = 200 →
        ∀ i ∈ ids, ∃ t ∈ db.transactions, t.id = i ∧ t.user = u) := by
  have hempty : ids.isEmpty = false := by
    cases ids with
    | nil => exact absurd rfl hne
    | cons a l => rfl
  constructor
  · rintro ⟨i0, hmem, hnone⟩
    have hlt := ownedFilter_length_lt db u ids i0 hnd hmem hnone
    unfold bulkDeleteTransactions
    rw [hempty]
    simp only [Bool.false_eq_true, if_false]
    rw [if_pos (Nat.ne_of_lt hlt)]
  · intro h200 i0 hmem
    by_contra hno
    push_neg at hno
    have hnone : ∀ t ∈ db.transactions, ¬(t.id = i0 ∧ t.user = u) := by
      intro t ht hc
      exact absurd hc.2 (hno t ht hc.1)
    have hlt := ownedFilter_length_lt db u ids i0 hnd hmem hnone
    unfold bulkDeleteTransactions at h200
    rw [hempty] at h200
    simp only [Bool.false_eq_true, if_false] at h200
    rw [if_pos (Nat.ne_of_lt hlt)] at h200
    simp at h200

/-- Witness for C2: user 1 bulk-deleting ids [1, 2, 3], where id 3 belongs
to user 2, gets 403 and the store — hence every balance — is unchanged. -/
theorem bulkDelete_authorization_witness :
    bulkDeleteTransactions c2db 1 [1, 2, 3] = (403, c2db) :=
  (bulkDelete_authorization c2db 1 [1, 2, 3] (by decide) (by decide)).1
    ⟨3, by decide, by decide⟩

/-- C3: after a successful delete of a transaction, deleting it again
returns 404 and leaves the store — in particular every account balance —
unchanged, firing no second balance reversal. -/
theorem deleteTransaction_idempotent (db : DB) (u i : Nat) (db2 : DB)
    (hnd : (db.transactions.map (fun t => t.id)).Nodup)
    (h : deleteTransaction db u i = (200, db2)) :
    deleteTransaction db2 u i = (404, db2) := by
  unfold deleteTransaction at h
  cases hf : db.transactions.find? (ownedBy i u) with
  | none => rw [hf] at h; simp at h
  | some t =>
    rw [hf] at h
    dsimp only at h
    simp only [Prod.mk.injEq] at h
    obtain ⟨-, h2⟩ := h
    subst h2
    have hkey : (postDeleteHook
        { db with transactions := db.transactions.eraseP (ownedBy i u) } t).transactions.find?
          (ownedBy i u) = none := by
      rw [postDeleteHook_transactions]
      exact find?_eraseP_ownedBy u i db.transactions t hnd hf
    unfold deleteTransaction
    rw [hkey]

/-- Witness for C3: deleting transaction 10 of user 1 succeeds once, and the
second delete of the same id returns 404 with the post-delete store
unchanged. -/
theorem deleteTransaction_idempotent_witness :
    deleteTransaction (deleteTransaction c3db 1 10).2 1 10 =
      (404, (deleteTransaction c3db 1 10).2) :=
  deleteTransaction_idempotent c3db 1 10 (deleteTransaction c3db 1 10).2 (by decide) rfl

/-- C4: updateTransaction never touches the accounts collection, so every
account's balance — in particular the linked account's — is unchanged by an
update, whatever the patch contains (including amount or type changes), in
every branch (404, validation failure, or successful field application). -/
theorem updateTransaction_preserves_balances (db : DB) (u i : Nat) (p : TxPatch) (k : Nat) :
    accountBalance (updateTransaction db u i p).2 k = accountBalance db k := by
  unfold updateTransaction
  cases h : db.transactions.find? (ownedBy i u) with
  | none => rfl
  | some t =>
    cases hpt : p.type with
    | none =>
      simp only []
      cases hpa : p.amount with
      | none => rfl
      | some a =>
        cases a with
        | none => rfl
        | some q => by_cases hq : q ≤ 0 <;> simp [hq, accountBalance]
    | some s =>
      simp only []
      by_cases hs : normalizeType s ∈ validTypes
      · simp only [hs, if_pos]
        cases hpa : p.amount with
        | none => rfl
        | some a =>
          cases a with
          | none => rfl
          | some q => by_cases hq : q ≤ 0 <;> simp [hq, accountBalance]
      · simp [hs]

/-- C5: a successful create followed by a query-by-id returns the stored
document, whose type is the supplied type trimmed and upper-cased, whose
category is the supplied category trimmed and lower-cased, and whose amount,
description and date are the supplied values — so the read-back fields
depend only on the case-normalized input, whatever casing the caller used. -/
theorem createTransaction_roundtrip (db : DB) (u : Nat) (inp : CreateInput)
    (db2 : DB) (i : Nat) (ty ds cat : JSString) (q : ℚ)
    (hty : inp.type = some ty) (hq : inp.amount = some (some q))
    (hds : inp.description = some ds) (hcat : inp.category = some cat)
    (h : createTransaction db u inp = (201, db2, some i)) :
    ∃ tx, getTransaction db2 u i = some tx ∧
      encodeType tx.type = normalizeType ty ∧
      tx.category = normalizeCategory cat ∧
      tx.amount = q ∧
      tx.description = jsTrim ds ∧
      tx.date = inp.date := by
  unfold createTransaction at h
  by_cases hmiss : (strMissing inp.type || inp.amount.isNone || strMissing inp.description ||
      strMissing inp.category || inp.account.isNone) = true
  · rw [if_pos hmiss] at h
    simp at h
  · rw [if_neg hmiss] at h
    cases hacc : inp.account with
    | none => rw [hacc] at hmiss; simp [strMissing] at hmiss
    | some accId =>
      rw [hty, hq, hds, hcat, hacc] at h
      dsimp only at h
      by_cases hv : normalizeType ty ∈ validTypes
      · rw [if_pos hv] at h
        by_cases hq0 : q ≤ 0
        · rw [if_pos hq0] at h
          simp at h
        · rw [if_neg hq0] at h
          cases hfind : db.accounts.find? (fun a => decide (a.id = accId ∧ a.user = u)) with
          | none => rw [hfind] at h; simp at h
          | some acc =>
            rw [hfind] at h
            dsimp only at h
            by_cases hsv : transactionSchemaValid ⟨db.nextId, u, accId,
                decodeType (jsToUpper (normalizeType ty)), q, jsTrim ds,
                jsToLower (normalizeCategory cat), inp.date⟩ = true
            case neg =>
              rw [if_neg hsv] at h
              simp at h
            rw [if_pos hsv] at h
            simp only [Prod.mk.injEq, Option.some.injEq] at h
            obtain ⟨-, hdb2, hi⟩ := h
            subst hdb2
            subst hi
            refine ⟨⟨db.nextId, u, accId, decodeType (jsToUpper (normalizeType ty)), q,
              jsTrim ds, jsToLower (normalizeCategory cat), inp.date⟩, ?_, ?_, ?_, rfl, rfl, rfl⟩
            · unfold getTransaction
              rw [postSaveHook_transactions]
              dsimp only
              exact List.find?_cons_of_pos _ (by simp [ownedBy])
            · dsimp only
              rw [(validTypes_fixed _ hv).1, (validTypes_fixed _ hv).2]
            · dsimp only
              exact jsToLower_idem (jsTrim cat)
      · rw [if_neg hv] at h
        simp at h

/-- C9: with a parsed amount at most 0 the create request is rejected with
status 400 and the store — documents and balances — is unchanged, while an
amount of 0.01 passes both the controller's positivity check and the
schema's min-0.01 validator: with the other validations satisfied (valid
type, owned account, and a description and category that pass the schema —
non-empty after trimming, description at most 200 code units) the same
request with amount 0.01 is accepted with status 201. -/
theorem createTransaction_amount_boundary (db : DB) (u : Nat) (inp : CreateInput) (q : ℚ)
    (hq : inp.amount = some (some q)) :
    (q ≤ 0 → createTransaction db u inp = (400, db, none)) ∧
    (∀ ty ds cat accId acc,
      inp.type = some ty → normalizeType ty ∈ validTypes →
      inp.description = some ds → jsTrim ds ≠ [] → (jsTrim ds).length ≤ 200 →
      inp.category = some cat → jsTrim cat ≠ [] →
      inp.account = some accId →
      db.accounts.find? (fun a => decide (a.id = accId ∧ a.user = u)) = some acc →
      (createTransaction db u { inp with amount := some (some (mkRat 1 100)) }).1 = 201) := by
  constructor
  · intro hq0
    unfold createTransaction
    by_cases hmiss : (strMissing inp.type || inp.amount.isNone || strMissing inp.description ||
        strMissing inp.category || inp.account.isNone) = true
    · rw [if_pos hmiss]
    · rw [if_neg hmiss]
      simp only [Bool.not_eq_true, Bool.or_eq_false_iff, and_assoc] at hmiss
      obtain ⟨h1, h2, h3, h4, h5⟩ := hmiss
      obtain ⟨ty, hty⟩ := Option.ne_none_iff_exists'.mp
        (show inp.type ≠ none from fun hn => by simp [hn, strMissing] at h1)
      obtain ⟨ds, hds⟩ := Option.ne_none_iff_exists'.mp
        (show inp.description ≠ none from fun hn => by simp [hn, strMissing] at h3)
      obtain ⟨cat, hcat⟩ := Option.ne_none_iff_exists'.mp
        (show inp.category ≠ none from fun hn => by simp [hn, strMissing] at h4)
      obtain ⟨accId, hacc⟩ := Option.ne_none_iff_exists'.mp
        (show inp.account ≠ none from fun hn => by simp [hn] at h5)
      rw [hty, hq, hds, hcat, hacc]
      dsimp only
      by_cases hv : normalizeType ty ∈ validTypes
      · rw [if_pos hv, if_pos hq0]
      · rw [if_neg hv]
  · intro ty ds cat accId acc hty hv hdsv hds1 hds2 hcatv hcat1 hacc hfind
    have hty2 : strMissing (some ty) = false := by
      cases ty with
      | nil => exact absurd hv (by decide)
      | cons a l => rfl
    have hds0 : ds ≠ [] := by
      intro hn
      exact hds1 (by rw [hn]; rfl)
    have hcat0 : cat ≠ [] := by
      intro hn
      exact hcat1 (by rw [hn]; rfl)
    have hdsm : strMissing (some ds) = false := by
      cases ds with
      | nil => exact absurd rfl hds0
      | cons a l => rfl
    have hcatm : strMissing (some cat) = false := by
      cases cat with
      | nil => exact absurd rfl hcat0
      | cons a l => rfl
    unfold createTransaction
    dsimp only
    rw [hty, hdsv, hcatv, hacc]
    have hcond : (strMissing (some ty) || (some (some (mkRat 1 100))).isNone ||
        strMissing (some ds) || strMissing (some cat) ||
        (some accId : Option Nat).isNone) = false := by
      rw [hty2, hdsm, hcatm]
      rfl
    rw [hcond, if_neg (by decide : ¬false = true)]
    dsimp only
    rw [if_pos hv, if_neg (by decide : ¬(mkRat 1 100 : ℚ) ≤ 0), hfind]
    have hval : transactionSchemaValid ⟨db.nextId, u, accId,
        decodeType (jsToUpper (normalizeType ty)), mkRat 1 100, jsTrim ds,
        jsToLower (normalizeCategory cat), inp.date⟩ = true := by
      unfold transactionSchemaValid
      simp only [Bool.and_eq_true, decide_eq_true_eq]
      refine ⟨⟨⟨hds1, hds2⟩, le_refl _⟩, ?_⟩
      intro hn
      exact hcat1 (by simpa [jsToLower, normalizeCategory] using hn)
    rw [if_pos hval]

/-- Witness for C9: amount 0 is rejected with 400 and an unchanged store,
and the same request with amount 0.01 is accepted with 201. -/
theorem createTransaction_amount_boundary_witness :
    createTransaction c1db 1 c9inp = (400, c1db, none) ∧
    (createTransaction c1db 1 { c9inp with amount := some (some (mkRat 1 100)) }).1 = 201 :=
  ⟨(createTransaction_amount_boundary c1db 1 c9inp 0 rfl).1 (le_refl 0),
   (createTransaction_amount_boundary c1db 1 c9inp 0 rfl).2 (str ("income"))
     (str ("test")) (str ("Misc")) 1 c1acc
     rfl (by decide) rfl (by decide) (by decide) rfl (by decide) rfl rfl⟩

/-- Witness for C5: creating with type " InCoMe " and category " FoOd " and
querying the new id back returns the stored document with type INCOME,
category food, and the supplied amount, description and date. -/
theorem createTransaction_roundtrip_witness :
    ∃ tx, getTransaction (createTransaction c1db 1 c5inp).2.1 1 10 = some tx ∧
      encodeType tx.type = normalizeType (str (" InCoMe ")) ∧
      tx.category = normalizeCategory (str (" FoOd ")) ∧
      tx.amount = 25 ∧
      tx.description = jsTrim (str (" lunch ")) ∧
      tx.date = c5inp.date :=
  createTransaction_roundtrip c1db 1 c5inp (createTransaction c1db 1 c5inp).2.1 10
    (str (" InCoMe ")) (str (" lunch ")) (str (" FoOd ")) 25
    rfl rfl rfl rfl rfl

/-- C8: the stats aggregate groups the matched transactions by type for
exactly the four enumerated types — each reported total and count is the
filtered sum and count for that type, with absent types defaulting to 0 —
and reports net = income − expense − investment − tax; the overall count
covers every matched transaction. -/
theorem getTransactionStats_correct (txs : List Transaction) :
    (getTransactionStats txs).income = typeSum txs .INCOME ∧
    (getTransactionStats txs).expense = typeSum txs .EXPENSE ∧
    (getTransactionStats txs).investment = typeSum txs .INVESTMENT ∧
    (getTransactionStats txs).tax = typeSum txs .TAX ∧
    (getTransactionStats txs).incomeCount = typeCount txs .INCOME ∧
    (getTransactionStats txs).expenseCount = typeCount txs .EXPENSE ∧
    (getTransactionStats txs).investmentCount = typeCount txs .INVESTMENT ∧
    (getTransactionStats txs).taxCount = typeCount txs .TAX ∧
    (getTransactionStats txs).net =
      typeSum txs .INCOME - typeSum txs .EXPENSE - typeSum txs .INVESTMENT -
        typeSum txs .TAX ∧
    (getTransactionStats txs).transactionCount = txs.length := by
  have hagg : ∀ ty, byType (aggregateByType txs) ty = (typeSum txs ty, typeCount txs ty) := by
    intro ty
    rw [aggregateByType, byType_aggregate]
    simp [byType]
  unfold getTransactionStats
  dsimp only
  rw [hagg, hagg, hagg, hagg]
  refine ⟨rfl, rfl, rfl, rfl, rfl, rfl, rfl, rfl, rfl, ?_⟩
  exact typeCount_partition txs

/-- C7 (amended): for a budget carrying a month — the MONTHLY case — the
spending window is exactly the first through the last day of
budget.month/budget.year: currentSpending is the sum of the amounts of the
caller's EXPENSE transactions with category exactly the budget's category
dated in that year and month. (For YEARLY budgets the month is absent and
the same month-based window construction matches nothing; see the
counterexample.) -/
theorem budgetSpending_monthly_window (txs : List Transaction) (u : Nat) (b : Budget)
    (m : Nat) (hm : b.month = some m) (hv : ∀ t ∈ txs, validDate t.date) :
    budgetSpending txs u b =
      ((txs.filter (fun t => decide (t.user = u) && decide (t.type = TxType.EXPENSE) &&
          decide (t.category = b.category) && decide (t.date.year = b.year) &&
          decide (t.date.month = m))).map (fun t => t.amount)).sum := by
  unfold budgetSpending
  rw [hm]
  congr 1
  congr 1
  apply List.filter_congr
  intro t ht
  rw [inWindow_monthly t.date b.year m (hv t ht)]
  simp only [Bool.and_assoc]

/-- Witness for the amended C7: the April 2025 budget's spending over a
store holding one April 2025 expense equals the year-and-month filtered
sum. -/
theorem budgetSpending_monthly_window_witness :
    budgetSpending [c7tx] 1 c7budgetM =
      (([c7tx].filter (fun t => decide (t.user = 1) && decide (t.type = TxType.EXPENSE) &&
          decide (t.category = c7budgetM.category) && decide (t.date.year = c7budgetM.year) &&
          decide (t.date.month = 4))).map (fun t => t.amount)).sum :=
  budgetSpending_monthly_window [c7tx] 1 c7budgetM 4 rfl (by decide)

/-- Counterexample for C7 as stated: for a YEARLY budget the claim demands a
full-budget-year window, so the caller's matching 2025 expense of 50 should
be counted; the code's month-based window (month absent) matches nothing
and computes spending 0. -/
theorem budgetSpending_yearly_counterexample :
    c7budgetY.period = .YEARLY ∧
    c7txY.user = 1 ∧
    c7txY.type = .EXPENSE ∧
    c7txY.category = c7budgetY.category ∧
    c7txY.date.year = c7budgetY.year ∧
    c7txY.amount = 50 ∧
    budgetSpending [c7txY] 1 c7budgetY = 0 ∧
    (0 : ℚ) ≠ 50 :=
  ⟨rfl, rfl, rfl, rfl, rfl, rfl, rfl, by norm_num⟩

/-- Counterexample for C6 as stated: a budget with alertThreshold 50 and
spending 600 of amount 1000 has percentageUsed 60, which is at least the
threshold and below 100 — the claim demands WARNING — yet getBudgetStats
classifies it HEALTHY, because its WARNING bound is the literal 80. -/
theorem budget_status_threshold_counterexample :
    c6budget50.alertThreshold = 50 ∧
    percentageUsed c6budget50.amount 600 = 60 ∧
    budgetStatsStatus c6budget50 600 = .HEALTHY ∧
    specStatus c6budget50.alertThreshold (percentageUsed c6budget50.amount 600) =
      .WARNING := by
  have h60 : percentageUsed (1000 : ℚ) 600 = 60 := by
    unfold percentageUsed
    rw [if_pos (by norm_num : (0 : ℚ) < 1000)]
    norm_num
  refine ⟨rfl, by exact h60, ?_, ?_⟩
  · show statsStatus (percentageUsed (1000 : ℚ) 600) = .HEALTHY
    rw [h60]
    unfold statsStatus
    rw [if_neg (by norm_num : ¬(100 : ℚ) ≤ 60), if_neg (by norm_num : ¬(80 : ℚ) ≤ 60)]
  · show specStatus (50 : ℚ) (percentageUsed (1000 : ℚ) 600) = .WARNING
    rw [h60]
    unfold specStatus
    rw [if_neg (by norm_num : ¬(100 : ℚ) ≤ 60), if_pos (by norm_num : (50 : ℚ) ≤ 60)]

/-- C6 (amended): the status getBudgetStats computes is EXCEEDED exactly
when percentageUsed ≥ 100, WARNING exactly when 80 ≤ percentageUsed < 100
with the bound fixed at the literal 80 (the budget's alertThreshold plays
no part in the status; it only gates the alert feed), and HEALTHY below 80;
in particular, for the MONTHLY budget of amount 1000 and alertThreshold 80,
spending 850 gives percentageUsed 85, status WARNING and a WARNING alert
entry, and spending exactly 1000 gives status EXCEEDED. -/
theorem budget_status_fixed_threshold :
    (∀ pct : ℚ,
      (statsStatus pct = .EXCEEDED ↔ 100 ≤ pct) ∧
      (statsStatus pct = .WARNING ↔ 80 ≤ pct ∧ pct < 100) ∧
      (statsStatus pct = .HEALTHY ↔ pct < 80)) ∧
    percentageUsed c6budget80.amount 850 = 85 ∧
    budgetStatsStatus c6budget80 850 = .WARNING ∧
    budgetAlert c6budget80 850 = some .WARNING ∧
    percentageUsed c6budget80.amount 1000 = 100 ∧
    budgetStatsStatus c6budget80 1000 = .EXCEEDED := by
  have h85 : percentageUsed (1000 : ℚ) 850 = 85 := by
    unfold percentageUsed
    rw [if_pos (by norm_num : (0 : ℚ) < 1000)]
    norm_num
  have h100 : percentageUsed (1000 : ℚ) 1000 = 100 := by
    unfold percentageUsed
    rw [if_pos (by norm_num : (0 : ℚ) < 1000)]
    norm_num
  refine ⟨?_, by exact h85, ?_, ?_, by exact h100, ?_⟩
  · intro pct
    unfold statsStatus
    split_ifs with hx hy
    · exact ⟨⟨fun _ => hx, fun _ => rfl⟩,
        ⟨fun hc => absurd hc (by decide), fun hc => absurd hx (not_le.mpr hc.2)⟩,
        ⟨fun hc => absurd hc (by decide),
         fun hc => absurd hx (not_le.mpr (lt_trans hc (by norm_num)))⟩⟩
    · exact ⟨⟨fun hc => absurd hc (by decide), fun hc => absurd hc hx⟩,
        ⟨fun _ => ⟨hy, not_le.mp hx⟩, fun _ => rfl⟩,
        ⟨fun hc => absurd hc (by decide), fun hc => absurd hy (not_le.mpr hc)⟩⟩
    · exact ⟨⟨fun hc => absurd hc (by decide), fun hc => absurd hc hx⟩,
        ⟨fun hc => absurd hc (by decide), fun hc => absurd hc.1 hy⟩,
        ⟨fun _ => not_le.mp hy, fun _ => rfl⟩⟩
  · show statsStatus (percentageUsed (1000 : ℚ) 850) = .WARNING
    rw [h85]
    unfold statsStatus
    rw [if_neg (by norm_num : ¬(100 : ℚ) ≤ 85), if_pos (by norm_num : (80 : ℚ) ≤ 85)]
  · show budgetAlert c6budget80 850 = some .WARNING
    have hpe : percentageUsed c6budget80.amount 850 = 85 := h85
    unfold budgetAlert
    rw [hpe]
    rw [if_pos (show c6budget80.alertsEnabled = true from rfl)]
    rw [if_pos (show c6budget80.alertThreshold ≤ 85 by norm_num [c6budget80])]
    rw [if_neg (by norm_num : ¬(100 : ℚ) ≤ 85)]
  · show statsStatus (percentageUsed (1000 : ℚ) 1000) = .EXCEEDED
    rw [h100]
    unfold statsStatus
    rw [if_pos (by norm_num : (100 : ℚ) ≤ 100)]

/-- C10: updateAccount strips the balance field from the patch before
applying it, so the account's balance — and every other account's balance —
is unchanged, even when the patch contains a balance value. -/
theorem updateAccount_preserves_balances (db : DB) (u i : Nat) (p : AccountPatch) (k : Nat) :
    accountBalance (updateAccount db u i p).2 k = accountBalance db k := by
  unfold updateAccount
  cases h : db.accounts.find? (fun a => decide (a.id = i ∧ a.user = u)) with
  | none => rfl
  | some a0 =>
    have hmb := find_map_balance db.accounts
      (fun a => if a.id = i then applyAccountPatch a p else a) k
      (fun a => by by_cases hai : a.id = i <;> simp [hai, applyAccountPatch])
      (fun a => by by_cases hai : a.id = i <;> simp [hai, applyAccountPatch])
    simpa [accountBalance, updateWhere] using hmb

end FinWise
